import Mathlib

set_option maxHeartbeats 1000000

/-!
Verification of the marvai prompt-artifact lifecycle core: a shallow
embedding of the `.mprompt` parser, the security validators, the semantic
version comparator and the install/update orchestrators, together with
theorems about them.  Go strings are modelled as Lean `String`s (sequences
of Unicode scalar values; Go byte counts are recovered through the UTF-8
size of each character), Go `error` returns as `Except String` /
`Option`, and the YAML (de)serializers, the SHA-256 hex digest and the
interactive collaborators as explicit function parameters.
-/

namespace Marvai

/-! ## Go string primitives -/

/-- Size in bytes of the UTF-8 encoding of one character; Go `len` counts
these bytes. -/
def utf8Bytes (c : Char) : Nat :=
  if c.val < 0x80 then 1
  else if c.val < 0x800 then 2
  else if c.val < 0x10000 then 3
  else 4

/-- Go `len(s)`: the number of bytes of the UTF-8 encoding of `s`. -/
def byteLen (s : String) : Nat :=
  (s.toList.map utf8Bytes).sum

/-- The character set trimmed by Go `strings.TrimSpace` (Unicode white
space as reported by `unicode.IsSpace`). -/
def isGoSpace (c : Char) : Bool :=
  let n := c.toNat
  n == 0x09 || n == 0x0A || n == 0x0B || n == 0x0C || n == 0x0D ||
  n == 0x20 || n == 0x85 || n == 0xA0 || n == 0x1680 ||
  (decide (0x2000 ≤ n) && decide (n ≤ 0x200A)) || n == 0x2028 || n == 0x2029 ||
  n == 0x202F || n == 0x205F || n == 0x3000

/-- Go `strings.TrimSpace`. -/
def goTrimSpace (s : String) : String :=
  String.mk (((s.toList.dropWhile isGoSpace).reverse.dropWhile isGoSpace).reverse)

/-- Byte-wise lexicographic strict order on the two character lists; on the
valid UTF-8 contents of Go strings this coincides with Go's `<` on strings,
because UTF-8 encoding preserves code-point order. -/
def charListLt : List Char → List Char → Bool
  | [], [] => false
  | [], _ :: _ => true
  | _ :: _, [] => false
  | a :: as, b :: bs =>
    if a.toNat < b.toNat then true
    else if b.toNat < a.toNat then false
    else charListLt as bs

/-- Go `a < b` on strings. -/
def goStringLt (a b : String) : Bool := charListLt a.toList b.toList

/-- The three-way comparison Go writes as
`if a < b { return -1 } else if a > b { return 1 }; return 0`. -/
def goStrCmp (a b : String) : Int :=
  if goStringLt a b then -1 else if goStringLt b a then 1 else 0

theorem charListLt_asymm (a : List Char) :
    ∀ b, charListLt a b = true → charListLt b a = false := by
  induction a with
  | nil =>
    intro b h
    cases b with
    | nil => simp [charListLt] at h
    | cons x xs => simp [charListLt]
  | cons x xs ih =>
    intro b h
    cases b with
    | nil => simp [charListLt] at h
    | cons y ys =>
      simp only [charListLt] at h ⊢
      by_cases h1 : x.toNat < y.toNat
      · have h2 : ¬ y.toNat < x.toNat := by omega
        simp [h1, h2]
      · by_cases h2 : y.toNat < x.toNat
        · simp [h1, h2] at h
        · simp [h1, h2] at h ⊢
          exact ih ys h

theorem charListLt_irrefl (a : List Char) : charListLt a a = false := by
  induction a with
  | nil => simp [charListLt]
  | cons x xs ih => simp [charListLt, ih]

theorem goStringLt_asymm (a b : String) (h : goStringLt a b = true) :
    goStringLt b a = false :=
  charListLt_asymm a.toList b.toList h

theorem goStringLt_irrefl (a : String) : goStringLt a a = false :=
  charListLt_irrefl a.toList

theorem goStrCmp_antisym (a b : String) : goStrCmp a b = -goStrCmp b a := by
  unfold goStrCmp
  by_cases h1 : goStringLt a b = true
  · have h2 : goStringLt b a = false := goStringLt_asymm a b h1
    simp [h1, h2]
  · by_cases h2 : goStringLt b a = true
    · simp [h1, h2]
    · simp [h1, h2]

theorem goStrCmp_self (a : String) : goStrCmp a a = 0 := by
  simp [goStrCmp, goStringLt_irrefl]

/-! ## Version comparator (source: `parseVersion`, `compareVersions`,
`isVersionUpToDate` in the versions file) -/

/-- The `(major, minor, patch, preRelease)` tuple returned by
`parseVersion`. -/
structure SemVer where
  major : Int
  minor : Int
  patch : Int
  preRelease : String
deriving Repr, DecidableEq

/-- Decimal value of a digit list. -/
def digitsVal (l : List Char) : Nat :=
  l.foldl (fun n c => 10 * n + (c.toNat - 48)) 0

/-- Go `strconv.Atoi`: an optional leading sign, one or more decimal
digits, and a 64-bit signed range check (`ErrRange` is an error to the
callers here). -/
def goAtoi (s : String) : Option Int :=
  let signAndDigits : Int × List Char :=
    match s.toList with
    | '+' :: r => (1, r)
    | '-' :: r => (-1, r)
    | r => (1, r)
  let sign := signAndDigits.1
  let ds := signAndDigits.2
  if ds = [] then none
  else if ds.all Char.isDigit then
    let n : Int := sign * (digitsVal ds : Nat)
    if -(2 ^ 63) ≤ n ∧ n ≤ 2 ^ 63 - 1 then some n else none
  else none

/-- The character class `[a-zA-Z0-9\-\.]` of the semver regex. -/
def isSemverIdentChar (c : Char) : Bool :=
  let n := c.toNat
  decide ((65 ≤ n ∧ n ≤ 90) ∨ (97 ≤ n ∧ n ≤ 122) ∨ (48 ≤ n ∧ n ≤ 57)) ||
    c == '-' || c == '.'

/-- Model of the anchored Go regexp
`^(\d+)\.(\d+)\.(\d+)(?:-([a-zA-Z0-9\-\.]+))?(?:\+([a-zA-Z0-9\-\.]+))?$`
used by `parseVersion`: a successful match returns the three numeric
capture groups and the pre-release group; the build-metadata group is
required to match but is dropped, since the source never reads it. -/
def matchSemverPattern (s : String) : Option (String × String × String × String) :=
  let l := s.toList
  let d1 := l.takeWhile Char.isDigit
  match l.dropWhile Char.isDigit with
  | '.' :: r1 =>
    let d2 := r1.takeWhile Char.isDigit
    match r1.dropWhile Char.isDigit with
    | '.' :: r2 =>
      let d3 := r2.takeWhile Char.isDigit
      if d1 = [] ∨ d2 = [] ∨ d3 = [] then none
      else
        match r2.dropWhile Char.isDigit with
        | [] => some (String.mk d1, String.mk d2, String.mk d3, "")
        | '-' :: r =>
          let pre := r.takeWhile isSemverIdentChar
          match r.dropWhile isSemverIdentChar with
          | [] =>
            if pre = [] then none
            else some (String.mk d1, String.mk d2, String.mk d3, String.mk pre)
          | '+' :: b =>
            if pre = [] ∨ b = [] ∨ ¬ (b.all isSemverIdentChar = true) then none
            else some (String.mk d1, String.mk d2, String.mk d3, String.mk pre)
          | _ => none
        | '+' :: b =>
          if b = [] ∨ ¬ (b.all isSemverIdentChar = true) then none
          else some (String.mk d1, String.mk d2, String.mk d3, "")
        | _ => none
    | _ => none
  | _ => none

/-- Go `strings.Index(s, "-")` based split used by the fallback branch:
`some (before, after)` at the first occurrence, `none` if absent. -/
def splitAtChar (sep : Char) : List Char → Option (List Char × List Char)
  | [] => none
  | c :: r =>
    if c = sep then some ([], r)
    else (splitAtChar sep r).map (fun p => (c :: p.1, p.2))

/-- Go `strings.TrimPrefix(s, "v")`. -/
def trimLeadingV (s : String) : String :=
  match s.toList with
  | 'v' :: r => String.mk r
  | _ => s

/-- Go `strings.Split(s, sep)` for a one-character separator. -/
def splitOnCharAux (sep : Char) : List Char → List Char → List String
  | [], acc => [String.mk acc.reverse]
  | c :: r, acc =>
    if c = sep then String.mk acc.reverse :: splitOnCharAux sep r []
    else splitOnCharAux sep r (c :: acc)

def splitOnChar (sep : Char) (s : String) : List String :=
  splitOnCharAux sep s.toList []

/-- `parseVersion` from the source: empty rejected, optional leading `v`,
the semver regex first, then the dotted fallback with Atoi on each part
and a pre-release split inside the patch part. -/
def parseVersion (version : String) : Option SemVer :=
  if version = "" then none
  else
    let v := trimLeadingV version
    match matchSemverPattern v with
    | some (m1, m2, m3, pre) =>
      match goAtoi m1, goAtoi m2, goAtoi m3 with
      | some major, some minor, some patch => some ⟨major, minor, patch, pre⟩
      | _, _, _ => none
    | none =>
      match splitOnChar '.' v with
      | [] => none
      | p0 :: rest =>
        match goAtoi p0 with
        | none => none
        | some major =>
          match rest with
          | [] => some ⟨major, 0, 0, ""⟩
          | p1 :: rest2 =>
            match goAtoi p1 with
            | none => none
            | some minor =>
              match rest2 with
              | [] => some ⟨major, minor, 0, ""⟩
              | p2 :: _ =>
                match splitAtChar '-' p2.toList with
                | none =>
                  match goAtoi p2 with
                  | none => none
                  | some patch => some ⟨major, minor, patch, ""⟩
                | some (patchPart, pre) =>
                  match goAtoi (String.mk patchPart) with
                  | none => none
                  | some patch => some ⟨major, minor, patch, String.mk pre⟩

/-- The field-by-field comparison block of `compareVersions` (the sequence
of early returns after both versions parsed). -/
def compareSemVer (s1 s2 : SemVer) : Int :=
  if s1.major ≠ s2.major then (if s1.major < s2.major then -1 else 1)
  else if s1.minor ≠ s2.minor then (if s1.minor < s2.minor then -1 else 1)
  else if s1.patch ≠ s2.patch then (if s1.patch < s2.patch then -1 else 1)
  else if s1.preRelease = "" ∧ s2.preRelease ≠ "" then 1
  else if s1.preRelease ≠ "" ∧ s2.preRelease = "" then -1
  else if s1.preRelease ≠ "" ∧ s2.preRelease ≠ "" then
    goStrCmp s1.preRelease s2.preRelease
  else 0

/-- `compareVersions` from the source: equal strings short-circuit to 0;
if either side fails to parse, plain string comparison of the raw inputs;
otherwise the field comparison. -/
def compareVersions (v1 v2 : String) : Int :=
  if v1 = v2 then 0
  else
    match parseVersion v1, parseVersion v2 with
    | some s1, some s2 => compareSemVer s1 s2
    | _, _ => goStrCmp v1 v2

/-- `isVersionUpToDate` from the source. -/
def isVersionUpToDate (localVersion remoteVersion : String) : Bool :=
  decide (compareVersions localVersion remoteVersion ≥ 0)

theorem compareSemVer_antisym (s1 s2 : SemVer) :
    compareSemVer s1 s2 = -compareSemVer s2 s1 := by
  unfold compareSemVer
  by_cases hM : s1.major = s2.major
  · rw [hM]
    by_cases hm : s1.minor = s2.minor
    · rw [hm]
      by_cases hp : s1.patch = s2.patch
      · rw [hp]
        simp only [ne_eq, not_true_eq_false, if_false, ite_not]
        by_cases h1 : s1.preRelease = ""
        · by_cases h2 : s2.preRelease = ""
          · simp [h1, h2]
          · simp [h1, h2]
        · by_cases h2 : s2.preRelease = ""
          · simp [h1, h2]
          · simp [h1, h2, goStrCmp_antisym s1.preRelease s2.preRelease]
      · have hp' : ¬ s2.patch = s1.patch := fun h => hp h.symm
        simp only [ne_eq, not_true_eq_false, if_false, hp, hp', not_false_eq_true, if_true]
        split_ifs <;> omega
    · have hm' : ¬ s2.minor = s1.minor := fun h => hm h.symm
      simp only [ne_eq, hM, not_true_eq_false, if_false, hm, hm', not_false_eq_true, if_true]
      split_ifs <;> omega
  · have hM' : ¬ s2.major = s1.major := fun h => hM h.symm
    simp only [ne_eq, hM, hM', not_false_eq_true, if_true]
    split_ifs <;> omega

/-- C6: for all version strings `x` and `y` (in particular all valid
ones), `compareVersions x y = -(compareVersions y x)` and
`compareVersions x x = 0`. -/
theorem compareVersions_antisym_refl (x y : String) :
    compareVersions x y = -compareVersions y x ∧ compareVersions x x = 0 := by
  constructor
  · by_cases hxy : x = y
    · subst hxy; simp [compareVersions]
    · have hyx : ¬ y = x := fun h => hxy h.symm
      unfold compareVersions
      rw [if_neg hxy, if_neg hyx]
      cases hx : parseVersion x <;> cases hy : parseVersion y
      · exact goStrCmp_antisym x y
      · exact goStrCmp_antisym x y
      · exact goStrCmp_antisym x y
      · exact compareSemVer_antisym _ _
  · simp [compareVersions]

/-- C7: for any two version strings parsing to the same
`(major, minor, patch)` triple, a version without pre-release compares
strictly greater than one with a pre-release, two non-empty pre-releases
compare byte-wise lexicographically, and in particular
`compareVersions "1.2.3" "1.2.3-beta" = 1` and
`compareVersions "1.2.3-alpha" "1.2.3-beta" = -1`. -/
theorem compareVersions_preRelease_order (x y : String) (s1 s2 : SemVer)
    (hx : parseVersion x = some s1) (hy : parseVersion y = some s2)
    (hM : s1.major = s2.major) (hm : s1.minor = s2.minor)
    (hp : s1.patch = s2.patch) :
    (s1.preRelease = "" → s2.preRelease ≠ "" → compareVersions x y = 1)
    ∧ (s1.preRelease ≠ "" → s2.preRelease = "" → compareVersions x y = -1)
    ∧ (s1.preRelease ≠ "" → s2.preRelease ≠ "" →
        compareVersions x y = goStrCmp s1.preRelease s2.preRelease)
    ∧ compareVersions "1.2.3" "1.2.3-beta" = 1
    ∧ compareVersions "1.2.3-alpha" "1.2.3-beta" = -1 := by
  by_cases hxy : x = y
  · subst hxy
    rw [hx] at hy
    injection hy with hs
    subst hs
    refine ⟨fun h1 h2 => absurd h1 h2, fun h1 h2 => absurd h2 h1,
      fun h1 h2 => ?_, by decide, by decide⟩
    rw [goStrCmp_self]
    simp [compareVersions]
  · have hred : compareVersions x y = compareSemVer s1 s2 := by
      unfold compareVersions
      rw [if_neg hxy, hx, hy]
    refine ⟨fun h1 h2 => ?_, fun h1 h2 => ?_, fun h1 h2 => ?_,
      by decide, by decide⟩
    · rw [hred]; unfold compareSemVer; simp [hM, hm, hp, h1, h2]
    · rw [hred]; unfold compareSemVer; simp [hM, hm, hp, h1, h2]
    · rw [hred]; unfold compareSemVer; simp [hM, hm, hp, h1, h2]

/-- Witness for C7 at `x = "1.2.3-alpha"`, `y = "1.2.3-beta"`. -/
theorem compareVersions_preRelease_order_witness :
    parseVersion "1.2.3-alpha" = some ⟨1, 2, 3, "alpha"⟩
    ∧ parseVersion "1.2.3-beta" = some ⟨1, 2, 3, "beta"⟩
    ∧ compareVersions "1.2.3-alpha" "1.2.3-beta" = goStrCmp "alpha" "beta" := by
  refine ⟨by decide, by decide, ?_⟩
  exact (compareVersions_preRelease_order "1.2.3-alpha" "1.2.3-beta"
    ⟨1, 2, 3, "alpha"⟩ ⟨1, 2, 3, "beta"⟩ (by decide) (by decide)
    rfl rfl rfl).2.2.1 (by decide) (by decide)

/-- C8: `isVersionUpToDate l r` is exactly `compareVersions l r ≥ 0`;
`compareVersions` falls back to plain lexicographic comparison of the raw
inputs when either side fails to parse; and the boundary cases
`isVersionUpToDate "" "1.0.0" = false`, `isVersionUpToDate "1.0.0" "" = true`
and `isVersionUpToDate "" "" = true` hold. -/
theorem isVersionUpToDate_spec :
    (∀ l r, isVersionUpToDate l r = true ↔ compareVersions l r ≥ 0)
    ∧ (∀ x y, parseVersion x = none ∨ parseVersion y = none →
        compareVersions x y = goStrCmp x y)
    ∧ isVersionUpToDate "" "1.0.0" = false
    ∧ isVersionUpToDate "1.0.0" "" = true
    ∧ isVersionUpToDate "" "" = true := by
  refine ⟨?_, ?_, by decide, by decide, by decide⟩
  · intro l r; simp [isVersionUpToDate]
  · intro x y h
    by_cases hxy : x = y
    · subst hxy
      rw [goStrCmp_self]
      simp [compareVersions]
    · unfold compareVersions
      rw [if_neg hxy]
      rcases h with h | h
      · rw [h]
      · rw [h]
        cases hxp : parseVersion x <;> rfl

/-- Witness for C8 at `x = ""`, `y = "1.0.0"`. -/
theorem isVersionUpToDate_spec_witness :
    parseVersion "" = none
    ∧ compareVersions "" "1.0.0" = goStrCmp "" "1.0.0" := by
  refine ⟨by decide, ?_⟩
  exact isVersionUpToDate_spec.2.1 "" "1.0.0" (Or.inl (by decide))

/-! ## Artifact data model (source: the `MPromptFrontmatter`,
`WizardVariable`, `MPromptData` and `PromptEntry` structs) -/

structure MPromptFrontmatter where
  name : String
  description : String
  author : String
  version : String
  file : String
  source : String
deriving Repr, DecidableEq

/-- The Go zero value of `MPromptFrontmatter`. -/
def emptyFrontmatter : MPromptFrontmatter := ⟨"", "", "", "", "", ""⟩

structure WizardVariable where
  id : String
  description : String
  type : String
  required : Bool
deriving Repr, DecidableEq

structure MPromptData where
  frontmatter : MPromptFrontmatter
  /-- The `Variables` field of the source struct (`variables` is a
  reserved token in Lean). -/
  vars : List WizardVariable
  template : String
deriving Repr, DecidableEq

structure PromptEntry where
  name : String
  description : String
  author : String
  version : String
  file : String
  sha256 : String
deriving Repr, DecidableEq

/-- The external collaborators of the core, abstracted as function
parameters: the YAML deserializers and serializers (`yaml.Unmarshal` /
`yaml.Marshal` on the respective types) and the hex-encoded SHA-256
digest of `verifySHA256`. -/
structure Collab where
  fmDec : String → Option MPromptFrontmatter
  wizDec : String → Option (List WizardVariable)
  varDec : String → Option (List (String × String))
  varEnc : List (String × String) → String
  fmEnc : MPromptFrontmatter → String
  sha256 : String → String

/-! ## Security validators (source: `isValidVariableNameLocal`,
`validateWizardVariables`) -/

/-- The deny-list of `isValidVariableNameLocal`. -/
def dangerousNames : List String :=
  ["__proto__", "constructor", "prototype", "toString", "valueOf"]

/-- The character class `[a-zA-Z0-9_-]` allowed in variable ids. -/
def isValidVarChar (c : Char) : Bool :=
  let n := c.toNat
  decide ((97 ≤ n ∧ n ≤ 122) ∨ (65 ≤ n ∧ n ≤ 90) ∨ (48 ≤ n ∧ n ≤ 57)) ||
    c == '_' || c == '-'

/-- `isValidVariableNameLocal` from the source: non-empty, not on the
deny-list, every rune in the allowed class. -/
def isValidVariableNameLocal (name : String) : Bool :=
  if name = "" then false
  else if dangerousNames.contains name then false
  else name.toList.all isValidVarChar

/-- The per-variable loop of `validateWizardVariables`, checks in source
order: id validity, description byte length, supported type. -/
def validateVarsAux : List WizardVariable → Except String Unit
  | [] => .ok ()
  | v :: rest =>
    if ¬ isValidVariableNameLocal v.id then
      .error "variable has invalid ID"
    else if byteLen v.description > 1000 then
      .error "variable description too long"
    else if v.type ≠ "" ∧ v.type ≠ "string" then
      .error "variable has unsupported type"
    else validateVarsAux rest

/-- `validateWizardVariables` from the source. -/
def validateWizardVariables (vars : List WizardVariable) : Except String Unit :=
  if vars.length > 100 then .error "too many wizard variables"
  else validateVarsAux vars

/-! ## Artifact parser (source: `ParseMPromptContent`) -/

def splitLines (s : String) : List String := splitOnChar '\n' s

/-- A section separator: a line whose `strings.TrimSpace` value is `--`. -/
def isSep (l : String) : Bool := goTrimSpace l == "--"

/-- Go `strings.Join(lines, "\n")`. -/
def joinLines : List String → String
  | [] => ""
  | [l] => l
  | l :: rest => l ++ "\n" ++ joinLines rest

/-- The line-classification loop of `ParseMPromptContent`: `sec` counts
the separator lines seen so far; a separator line increments it and is
placed in no bucket; any other line goes to the frontmatter, wizard or
template bucket for `sec` equal to 0, 1, and 2 or more respectively
(the source's `default` case also appends to the template bucket). -/
def bucketsAux : Nat → List String → List String × List String × List String
  | _, [] => ([], [], [])
  | sec, line :: rest =>
    if isSep line then bucketsAux (sec + 1) rest
    else
      let b := bucketsAux sec rest
      match sec with
      | 0 => (line :: b.1, b.2.1, b.2.2)
      | 1 => (b.1, line :: b.2.1, b.2.2)
      | _ => (b.1, b.2.1, line :: b.2.2)

def bucketLines (lines : List String) : List String × List String × List String :=
  bucketsAux 0 lines

/-- The frontmatter block of `ParseMPromptContent`: an empty bucket keeps
the zero value; a non-empty bucket is joined, capped at 1 MiB and
deserialized. -/
def parseFrontmatterSection (co : Collab) (fmLines : List String) :
    Except String MPromptFrontmatter :=
  if fmLines ≠ [] then
    if byteLen (joinLines fmLines) > 1024 * 1024 then
      .error "frontmatter YAML section too large"
    else
      match co.fmDec (joinLines fmLines) with
      | some fm => .ok fm
      | none => .error "error parsing frontmatter YAML"
  else .ok emptyFrontmatter

/-- The wizard block of `ParseMPromptContent`: an empty bucket yields no
variables; a non-empty bucket is joined, capped at 1 MiB, deserialized
and validated. -/
def parseWizardSection (co : Collab) (wizardLines : List String) :
    Except String (List WizardVariable) :=
  if wizardLines ≠ [] then
    if byteLen (joinLines wizardLines) > 1024 * 1024 then
      .error "wizard YAML section too large"
    else
      match co.wizDec (joinLines wizardLines) with
      | some vars =>
        match validateWizardVariables vars with
        | .ok _ => .ok vars
        | .error e => .error e
      | none => .error "error parsing wizard YAML"
  else .ok []

/-- `ParseMPromptContent` from the source: 10 MiB cap on the raw bytes,
split on `\n` into three buckets at `--` separator lines, deserialize the
frontmatter and wizard sections, validate the wizard variables, and join
the template bucket with `\n` and trim it. -/
def ParseMPromptContent (co : Collab) (content : String) :
    Except String MPromptData :=
  if byteLen content > 10 * 1024 * 1024 then
    .error "mprompt content too large"
  else
    match parseFrontmatterSection co (bucketLines (splitLines content)).1 with
    | .error e => .error e
    | .ok fm =>
      match parseWizardSection co (bucketLines (splitLines content)).2.1 with
      | .error e => .error e
      | .ok vars =>
        .ok ⟨fm, vars, goTrimSpace (joinLines (bucketLines (splitLines content)).2.2)⟩

/-! ## Claim-side description of the bucket classification -/

/-- Claim side: the frontmatter bucket is the lines seen while zero
separators have occurred, i.e. the lines before the first separator. -/
def specFm (lines : List String) : List String :=
  lines.takeWhile (fun l => !isSep l)

/-- Everything after the first separator line. -/
def afterFirstSep (lines : List String) : List String :=
  match lines.dropWhile (fun l => !isSep l) with
  | [] => []
  | _ :: rest => rest

/-- Claim side: the wizard bucket is the non-separator lines seen while
exactly one separator has occurred. -/
def specWiz (lines : List String) : List String :=
  (afterFirstSep lines).takeWhile (fun l => !isSep l)

/-- Claim side: the template bucket is every non-separator line seen
after two or more separators have occurred. -/
def specTmpl (lines : List String) : List String :=
  (afterFirstSep (afterFirstSep lines)).filter (fun l => !isSep l)

/-- Number of separator lines. -/
def sepCount (lines : List String) : Nat := lines.countP isSep

theorem bucketsAux_ge_two (lines : List String) :
    ∀ k, bucketsAux (k + 2) lines = ([], [], lines.filter (fun l => !isSep l)) := by
  induction lines with
  | nil => intro k; rfl
  | cons l rest ih =>
    intro k
    by_cases h : isSep l
    · have h3 : (k + 2) + 1 = (k + 1) + 2 := by omega
      simp [bucketsAux, h, h3, ih (k + 1)]
    · simp [bucketsAux, h, ih k]

theorem bucketsAux_one (lines : List String) :
    bucketsAux 1 lines =
      ([], lines.takeWhile (fun l => !isSep l),
        (afterFirstSep lines).filter (fun l => !isSep l)) := by
  induction lines with
  | nil => rfl
  | cons l rest ih =>
    by_cases h : isSep l
    · have hafter : afterFirstSep (l :: rest) = rest := by
        simp [afterFirstSep, List.dropWhile_cons, h]
      have hstep : bucketsAux 1 (l :: rest) = bucketsAux 2 rest := by
        simp [bucketsAux, h]
      rw [hstep, bucketsAux_ge_two rest 0, hafter]
      simp [List.takeWhile_cons, h]
    · have hafter : afterFirstSep (l :: rest) = afterFirstSep rest := by
        simp [afterFirstSep, List.dropWhile_cons, h]
      have hstep : bucketsAux 1 (l :: rest) =
          ((bucketsAux 1 rest).1, l :: (bucketsAux 1 rest).2.1,
            (bucketsAux 1 rest).2.2) := by
        simp [bucketsAux, h]
      rw [hstep, ih, hafter]
      simp [List.takeWhile_cons, h]

/-- The source's counter-based classification equals the claim-side
takeWhile/dropWhile/filter description. -/
theorem bucketLines_spec (lines : List String) :
    bucketLines lines = (specFm lines, specWiz lines, specTmpl lines) := by
  induction lines with
  | nil => rfl
  | cons l rest ih =>
    unfold bucketLines at ih ⊢
    by_cases h : isSep l
    · have hafter : afterFirstSep (l :: rest) = rest := by
        simp [afterFirstSep, List.dropWhile_cons, h]
      have hstep : bucketsAux 0 (l :: rest) = bucketsAux 1 rest := by
        simp [bucketsAux, h]
      rw [hstep, bucketsAux_one rest]
      simp [specFm, specWiz, specTmpl, hafter, List.takeWhile_cons, h]
    · have hafter : afterFirstSep (l :: rest) = afterFirstSep rest := by
        simp [afterFirstSep, List.dropWhile_cons, h]
      have hstep : bucketsAux 0 (l :: rest) =
          (l :: (bucketsAux 0 rest).1, (bucketsAux 0 rest).2.1,
            (bucketsAux 0 rest).2.2) := by
        simp [bucketsAux, h]
      rw [hstep, ih]
      simp [specFm, specWiz, specTmpl, hafter, List.takeWhile_cons, h]

theorem afterFirstSep_eq_nil_of_no_sep (lines : List String)
    (h : ∀ l ∈ lines, isSep l = false) : afterFirstSep lines = [] := by
  unfold afterFirstSep
  have hdw : lines.dropWhile (fun l => !isSep l) = [] := by
    rw [List.dropWhile_eq_nil_iff]
    intro x hx
    simp [h x hx]
  rw [hdw]

theorem specBuckets_of_sepCount_zero (lines : List String)
    (h : sepCount lines = 0) : specWiz lines = [] ∧ specTmpl lines = [] := by
  have hall : ∀ l ∈ lines, isSep l = false := by
    intro l hl
    have := List.countP_eq_zero.mp h l hl
    simp at this
    exact this
  have h1 : afterFirstSep lines = [] := afterFirstSep_eq_nil_of_no_sep lines hall
  constructor
  · simp [specWiz, h1]
  · unfold specTmpl
    rw [h1]
    rfl

theorem specTmpl_of_sepCount_one (lines : List String)
    (h : sepCount lines = 1) : specTmpl lines = [] := by
  induction lines with
  | nil => rfl
  | cons l rest ih =>
    by_cases hsep : isSep l
    · have hrest : sepCount rest = 0 := by
        unfold sepCount at h ⊢
        rw [List.countP_cons, if_pos hsep] at h
        omega
      have hall : ∀ x ∈ rest, isSep x = false := by
        intro x hx
        have := List.countP_eq_zero.mp hrest x hx
        simp at this
        exact this
      have h2 : afterFirstSep (l :: rest) = rest := by
        simp [afterFirstSep, List.dropWhile_cons, hsep]
      unfold specTmpl
      rw [h2, afterFirstSep_eq_nil_of_no_sep rest hall]
      rfl
    · have hrest : sepCount rest = 1 := by
        unfold sepCount at h ⊢
        rw [List.countP_cons, if_neg hsep] at h
        omega
      have h2 : afterFirstSep (l :: rest) = afterFirstSep rest := by
        simp [afterFirstSep, List.dropWhile_cons, hsep]
      have hrec := ih hrest
      unfold specTmpl at hrec ⊢
      rw [h2]
      exact hrec

/-! ## Helper lemmas for the parser claims -/

theorem one_le_utf8Bytes (c : Char) : 1 ≤ utf8Bytes c := by
  unfold utf8Bytes
  split_ifs <;> omega

theorem length_le_byteLen (s : String) : s.toList.length ≤ byteLen s := by
  unfold byteLen
  generalize s.toList = l
  induction l with
  | nil => simp
  | cons c cs ih =>
    simp only [List.map_cons, List.sum_cons, List.length_cons]
    have := one_le_utf8Bytes c
    omega

theorem parseFrontmatterSection_ok (co : Collab) (L : List String)
    (h : L = [] ∨ (byteLen (joinLines L) ≤ 1024 * 1024 ∧
        (co.fmDec (joinLines L)).isSome)) :
    ∃ fm, parseFrontmatterSection co L = .ok fm := by
  unfold parseFrontmatterSection
  by_cases hL : L = []
  · rw [if_neg (not_not_intro hL)]
    exact ⟨_, rfl⟩
  · rw [if_pos hL]
    rcases h with h | ⟨h1, h2⟩
    · exact absurd h hL
    · rw [if_neg (by omega)]
      obtain ⟨fm, hfm⟩ := Option.isSome_iff_exists.mp h2
      rw [hfm]
      exact ⟨fm, rfl⟩

theorem parseWizardSection_ok (co : Collab) (L : List String)
    (h : L = [] ∨ (byteLen (joinLines L) ≤ 1024 * 1024 ∧
        ∃ vs, co.wizDec (joinLines L) = some vs ∧
          validateWizardVariables vs = .ok ())) :
    ∃ vs, parseWizardSection co L = .ok vs := by
  unfold parseWizardSection
  by_cases hL : L = []
  · rw [if_neg (not_not_intro hL)]
    exact ⟨_, rfl⟩
  · rw [if_pos hL]
    rcases h with h | ⟨h1, vs, hdec, hval⟩
    · exact absurd h hL
    · rw [if_neg (by omega), hdec]
      simp only [hval]
      exact ⟨vs, rfl⟩

/-- A concrete collaborator assignment for instantiating the theorems:
every deserializer accepts everything and returns the zero value. -/
def trivialCollab : Collab :=
  ⟨fun _ => some emptyFrontmatter, fun _ => some [], fun _ => some [],
    fun _ => "", fun _ => "", fun _ => ""⟩

/-- C1: over any content of at most 10 MiB the source's counter-based
line classification equals the claim's "separators seen so far"
description (with separator lines themselves in no bucket); on success
the template equals the template bucket joined with newlines and
whitespace-trimmed; with zero separators the wizard and template buckets
are empty and with one separator the template bucket is empty; and the
parse succeeds whenever each non-empty section is within 1 MiB and its
deserializer plus validation succeed — so a separator count of zero or
one never itself causes a failure. -/
theorem parse_three_section_format (co : Collab) (content : String)
    (hsz : byteLen content ≤ 10 * 1024 * 1024) :
    bucketLines (splitLines content) =
      (specFm (splitLines content), specWiz (splitLines content),
        specTmpl (splitLines content))
    ∧ (∀ d, ParseMPromptContent co content = .ok d →
        d.template = goTrimSpace (joinLines (specTmpl (splitLines content))))
    ∧ (sepCount (splitLines content) = 0 →
        specWiz (splitLines content) = [] ∧ specTmpl (splitLines content) = [])
    ∧ (sepCount (splitLines content) = 1 → specTmpl (splitLines content) = [])
    ∧ ((specFm (splitLines content) = [] ∨
          (byteLen (joinLines (specFm (splitLines content))) ≤ 1024 * 1024 ∧
            (co.fmDec (joinLines (specFm (splitLines content)))).isSome))
        → (specWiz (splitLines content) = [] ∨
          (byteLen (joinLines (specWiz (splitLines content))) ≤ 1024 * 1024 ∧
            ∃ vs, co.wizDec (joinLines (specWiz (splitLines content))) = some vs ∧
              validateWizardVariables vs = .ok ()))
        → ∃ d, ParseMPromptContent co content = .ok d) := by
  have hb := bucketLines_spec (splitLines content)
  refine ⟨hb, ?_, specBuckets_of_sepCount_zero _, specTmpl_of_sepCount_one _, ?_⟩
  · intro d hd
    unfold ParseMPromptContent at hd
    rw [if_neg (by omega)] at hd
    cases hfm : parseFrontmatterSection co (bucketLines (splitLines content)).1 with
    | error e => rw [hfm] at hd; exact absurd hd (by simp)
    | ok fm =>
      rw [hfm] at hd
      cases hwz : parseWizardSection co (bucketLines (splitLines content)).2.1 with
      | error e => rw [hwz] at hd; exact absurd hd (by simp)
      | ok vs =>
        rw [hwz] at hd
        injection hd with hd1
        subst hd1
        show goTrimSpace (joinLines (bucketLines (splitLines content)).2.2) = _
        rw [hb]
  · intro hfm hwz
    obtain ⟨fm, hfm2⟩ :=
      parseFrontmatterSection_ok co (specFm (splitLines content)) hfm
    obtain ⟨vs, hwz2⟩ :=
      parseWizardSection_ok co (specWiz (splitLines content)) hwz
    unfold ParseMPromptContent
    rw [if_neg (by omega), hb]
    simp only [Prod.fst, Prod.snd]
    rw [hfm2, hwz2]
    exact ⟨_, rfl⟩

/-- Witness for C1 at the 29-byte concrete artifact from the spec's
scenario. -/
theorem parse_three_section_format_witness :
    byteLen "name: Hi\n--\n- id: x\n--\nSay hi" ≤ 10 * 1024 * 1024
    ∧ ∃ d, ParseMPromptContent trivialCollab "name: Hi\n--\n- id: x\n--\nSay hi" = .ok d := by
  refine ⟨by decide, ?_⟩
  exact (parse_three_section_format trivialCollab
      "name: Hi\n--\n- id: x\n--\nSay hi" (by decide)).2.2.2.2
    (Or.inr ⟨by decide, by decide⟩)
    (Or.inr ⟨by decide, [], rfl, rfl⟩)

/-! ## C5: rejection of invalid wizard variables -/

/-- The claim's violation conditions on the declared wizard variables: an
empty id, an id character outside `[A-Za-z0-9_-]`, a deny-listed id, a
prompt text of more than 1000 characters, or more than 100 variables. -/
def wizardClaimViolation (vars : List WizardVariable) : Prop :=
  100 < vars.length ∨
    ∃ v ∈ vars, v.id = "" ∨ (∃ c ∈ v.id.toList, isValidVarChar c = false) ∨
      v.id ∈ dangerousNames ∨ 1000 < v.description.toList.length

theorem isValidVariableNameLocal_eq_false_of_bad (s : String)
    (h : s = "" ∨ (∃ c ∈ s.toList, isValidVarChar c = false) ∨
        s ∈ dangerousNames) :
    isValidVariableNameLocal s = false := by
  unfold isValidVariableNameLocal
  by_cases h0 : s = ""
  · rw [if_pos h0]
  · rw [if_neg h0]
    by_cases hd : dangerousNames.contains s
    · rw [if_pos hd]
    · rw [if_neg hd]
      rcases h with h | h | h
      · exact absurd h h0
      · obtain ⟨c, hc, hbad⟩ := h
        cases hb : s.toList.all isValidVarChar
        · rfl
        · exfalso
          have := List.all_eq_true.mp hb c hc
          rw [hbad] at this
          exact Bool.false_ne_true this
      · exfalso
        apply hd
        exact List.elem_eq_true_of_mem h

theorem validateVarsAux_error_of_bad (l : List WizardVariable)
    (h : ∃ v ∈ l, v.id = "" ∨ (∃ c ∈ v.id.toList, isValidVarChar c = false) ∨
        v.id ∈ dangerousNames ∨ 1000 < v.description.toList.length) :
    ∃ e, validateVarsAux l = .error e := by
  induction l with
  | nil =>
    obtain ⟨v, hv, _⟩ := h
    exact absurd hv (List.not_mem_nil v)
  | cons v rest ih =>
    unfold validateVarsAux
    by_cases h1 : isValidVariableNameLocal v.id = true
    · rw [if_neg (fun hc => hc h1)]
      by_cases h2 : byteLen v.description > 1000
      · rw [if_pos h2]
        exact ⟨_, rfl⟩
      · rw [if_neg h2]
        by_cases h3 : v.type ≠ "" ∧ v.type ≠ "string"
        · rw [if_pos h3]
          exact ⟨_, rfl⟩
        · rw [if_neg h3]
          apply ih
          obtain ⟨w, hw, hbad⟩ := h
          rcases List.mem_cons.mp hw with hww | hw2
          · exfalso
            subst hww
            rcases hbad with hb | hb | hb | hb
            · rw [isValidVariableNameLocal_eq_false_of_bad _ (Or.inl hb)] at h1
              exact Bool.false_ne_true h1
            · rw [isValidVariableNameLocal_eq_false_of_bad _ (Or.inr (Or.inl hb))] at h1
              exact Bool.false_ne_true h1
            · rw [isValidVariableNameLocal_eq_false_of_bad _ (Or.inr (Or.inr hb))] at h1
              exact Bool.false_ne_true h1
            · have := length_le_byteLen w.description
              omega
          · exact ⟨w, hw2, hbad⟩
    · rw [if_pos h1]
      exact ⟨_, rfl⟩

theorem validateWizardVariables_error_of_violation (vars : List WizardVariable)
    (h : wizardClaimViolation vars) :
    ∃ e, validateWizardVariables vars = .error e := by
  unfold validateWizardVariables
  by_cases hlen : vars.length > 100
  · rw [if_pos hlen]
    exact ⟨_, rfl⟩
  · rw [if_neg hlen]
    rcases h with h | h
    · exact absurd h hlen
    · exact validateVarsAux_error_of_bad vars h

/-- C5: parsing fails outright whenever the declared wizard variables
(the list produced by the wizard-section deserializer) violate the id,
prompt-length or count constraints. -/
theorem parse_rejects_invalid_wizard_variables (co : Collab) (content : String)
    (vars : List WizardVariable)
    (hne : (bucketLines (splitLines content)).2.1 ≠ [])
    (hdec : co.wizDec (joinLines (bucketLines (splitLines content)).2.1) = some vars)
    (hbad : wizardClaimViolation vars) :
    ∃ e, ParseMPromptContent co content = .error e := by
  unfold ParseMPromptContent
  by_cases hsz : byteLen content > 10 * 1024 * 1024
  · rw [if_pos hsz]
    exact ⟨_, rfl⟩
  · rw [if_neg hsz]
    cases hfm : parseFrontmatterSection co (bucketLines (splitLines content)).1 with
    | error e => exact ⟨e, rfl⟩
    | ok fm =>
      have hwiz : ∃ e, parseWizardSection co (bucketLines (splitLines content)).2.1 =
          .error e := by
        unfold parseWizardSection
        rw [if_pos hne]
        by_cases hsz2 : byteLen (joinLines (bucketLines (splitLines content)).2.1) >
            1024 * 1024
        · rw [if_pos hsz2]
          exact ⟨_, rfl⟩
        · rw [if_neg hsz2, hdec]
          obtain ⟨e, he⟩ := validateWizardVariables_error_of_violation vars hbad
          simp only [he]
          exact ⟨e, rfl⟩
      obtain ⟨e, he⟩ := hwiz
      rw [he]
      exact ⟨e, rfl⟩

/-- A collaborator whose wizard deserializer yields one deny-listed
variable id, for the C5 witness. -/
def denyListCollab : Collab :=
  ⟨fun _ => some emptyFrontmatter, fun _ => some [⟨"__proto__", "", "", false⟩],
    fun _ => some [], fun _ => "", fun _ => "", fun _ => ""⟩

/-- Witness for C5: a wizard section deserializing to a `__proto__`
variable id makes the parse fail. -/
theorem parse_rejects_invalid_wizard_variables_witness :
    (bucketLines (splitLines "--\nx")).2.1 ≠ []
    ∧ wizardClaimViolation [⟨"__proto__", "", "", false⟩]
    ∧ ∃ e, ParseMPromptContent denyListCollab "--\nx" = .error e := by
  refine ⟨by decide, ?_, ?_⟩
  · exact Or.inr ⟨⟨"__proto__", "", "", false⟩, by decide, by decide⟩
  · exact parse_rejects_invalid_wizard_variables denyListCollab "--\nx"
      [⟨"__proto__", "", "", false⟩] (by decide) rfl
      (Or.inr ⟨⟨"__proto__", "", "", false⟩, by decide, by decide⟩)

/-! ## C9: size limits -/

/-- C9: content over 10 MiB is rejected, and a non-empty frontmatter or
wizard bucket whose joined text exceeds 1 MiB makes the whole parse fail
with an error (no partial artifact). -/
theorem parse_size_limits (co : Collab) (content : String) :
    (byteLen content > 10 * 1024 * 1024 →
      ∃ e, ParseMPromptContent co content = .error e)
    ∧ ((bucketLines (splitLines content)).1 ≠ [] →
        byteLen (joinLines (bucketLines (splitLines content)).1) > 1024 * 1024 →
        ∃ e, ParseMPromptContent co content = .error e)
    ∧ ((bucketLines (splitLines content)).2.1 ≠ [] →
        byteLen (joinLines (bucketLines (splitLines content)).2.1) > 1024 * 1024 →
        ∃ e, ParseMPromptContent co content = .error e) := by
  refine ⟨fun h => ?_, fun hne hbig => ?_, fun hne hbig => ?_⟩
  · unfold ParseMPromptContent
    rw [if_pos h]
    exact ⟨_, rfl⟩
  · unfold ParseMPromptContent
    by_cases h10 : byteLen content > 10 * 1024 * 1024
    · rw [if_pos h10]
      exact ⟨_, rfl⟩
    · rw [if_neg h10]
      have hfm : parseFrontmatterSection co (bucketLines (splitLines content)).1 =
          .error "frontmatter YAML section too large" := by
        unfold parseFrontmatterSection
        rw [if_pos hne, if_pos hbig]
      rw [hfm]
      exact ⟨_, rfl⟩
  · unfold ParseMPromptContent
    by_cases h10 : byteLen content > 10 * 1024 * 1024
    · rw [if_pos h10]
      exact ⟨_, rfl⟩
    · rw [if_neg h10]
      cases hfm : parseFrontmatterSection co (bucketLines (splitLines content)).1 with
      | error e => exact ⟨e, rfl⟩
      | ok fm =>
        have hwz : parseWizardSection co (bucketLines (splitLines content)).2.1 =
            .error "wizard YAML section too large" := by
          unfold parseWizardSection
          rw [if_pos hne, if_pos hbig]
        rw [hwz]
        exact ⟨_, rfl⟩

/-! Concrete over-limit inputs for the C9 witness. -/

/-- A run of `n` copies of `a`. -/
def repA (n : Nat) : String := String.mk (List.replicate n 'a')

theorem byteLen_repA (n : Nat) : byteLen (repA n) = n := by
  unfold byteLen repA
  show (List.map utf8Bytes (List.replicate n 'a')).sum = n
  rw [List.map_replicate, show utf8Bytes 'a' = 1 from rfl, List.sum_replicate]
  simp

theorem splitOnCharAux_no_sep (sep : Char) (l : List Char) :
    ∀ acc, (∀ c ∈ l, c ≠ sep) →
      splitOnCharAux sep l acc = [String.mk (acc.reverse ++ l)] := by
  induction l with
  | nil =>
    intro acc _
    simp [splitOnCharAux]
  | cons c r ih =>
    intro acc h
    have hc : c ≠ sep := h c (List.mem_cons_self c r)
    unfold splitOnCharAux
    rw [if_neg hc, ih (c :: acc) (fun x hx => h x (List.mem_cons_of_mem c hx))]
    simp

theorem splitLines_repA (n : Nat) : splitLines (repA n) = [repA n] := by
  unfold splitLines splitOnChar repA
  show splitOnCharAux '\n' (List.replicate n 'a') [] = _
  rw [splitOnCharAux_no_sep '\n' (List.replicate n 'a') []
    (fun c hc => by rw [List.eq_of_mem_replicate hc]; decide)]
  simp

theorem goTrimSpace_repA (n : Nat) : goTrimSpace (repA n) = repA n := by
  unfold goTrimSpace repA
  have hd : ∀ m : Nat, (List.replicate m 'a').dropWhile isGoSpace = List.replicate m 'a' := by
    intro m
    cases m with
    | zero => rfl
    | succ k =>
      rw [List.replicate_succ, List.dropWhile_cons]
      simp [show isGoSpace 'a' = false from rfl]
  show String.mk ((((List.replicate n 'a').dropWhile isGoSpace).reverse.dropWhile
      isGoSpace).reverse) = _
  rw [hd n, List.reverse_replicate, hd n, List.reverse_replicate]

theorem isSep_repA (n : Nat) (hn : 1 ≤ n) : isSep (repA n) = false := by
  unfold isSep
  rw [goTrimSpace_repA]
  cases hb : (repA n == "--")
  · rfl
  · exfalso
    have heq : repA n = "--" := eq_of_beq hb
    have h2 : List.replicate n 'a' = String.toList "--" := by
      rw [← heq]; rfl
    cases n with
    | zero => omega
    | succ k =>
      rw [List.replicate_succ] at h2
      have hhead := congrArg (fun l => l.headI) h2
      simp at hhead

theorem bucketLines_single (s : String) (h : isSep s = false) :
    bucketLines [s] = ([s], [], []) := by
  unfold bucketLines bucketsAux
  simp [h, bucketsAux]

theorem bucketsAux_cons_sep (sec : Nat) (l : String) (rest : List String)
    (h : isSep l = true) :
    bucketsAux sec (l :: rest) = bucketsAux (sec + 1) rest := by
  simp only [bucketsAux]
  rw [if_pos h]

theorem bucketsAux_one_single (s : String) (h : isSep s = false) :
    bucketsAux 1 [s] = ([], [s], []) := by
  simp only [bucketsAux]
  rw [if_neg (by simp [h])]

/-- Witness for C9: a 10 MiB + 1 input is rejected; a 2 MiB frontmatter
section and a 2 MiB wizard section each make the parse fail. -/
theorem parse_size_limits_witness :
    (∃ e, ParseMPromptContent trivialCollab (repA (10 * 1024 * 1024 + 1)) = .error e)
    ∧ (∃ e, ParseMPromptContent trivialCollab (repA (2 * 1024 * 1024)) = .error e)
    ∧ (∃ e, ParseMPromptContent trivialCollab
        (String.mk ('-' :: '-' :: '\n' :: List.replicate (2 * 1024 * 1024) 'a')) =
          .error e) := by
  refine ⟨?_, ?_, ?_⟩
  · exact (parse_size_limits trivialCollab _).1
      (by rw [byteLen_repA]; omega)
  · have hbuck : bucketLines (splitLines (repA (2 * 1024 * 1024))) =
        ([repA (2 * 1024 * 1024)], [], []) := by
      rw [splitLines_repA, bucketLines_single _ (isSep_repA _ (by omega))]
    exact (parse_size_limits trivialCollab _).2.1
      (by rw [hbuck]; simp)
      (by rw [hbuck]; show byteLen (joinLines [repA (2 * 1024 * 1024)]) > 1024 * 1024
          show byteLen (repA (2 * 1024 * 1024)) > 1024 * 1024
          rw [byteLen_repA]; omega)
  · have hsplit : splitLines
        (String.mk ('-' :: '-' :: '\n' :: List.replicate (2 * 1024 * 1024) 'a')) =
        ["--", repA (2 * 1024 * 1024)] := by
      unfold splitLines splitOnChar
      show splitOnCharAux '\n' ('-' :: '-' :: '\n' :: List.replicate (2 * 1024 * 1024) 'a') [] = _
      unfold splitOnCharAux
      rw [if_neg (by decide)]
      unfold splitOnCharAux
      rw [if_neg (by decide)]
      unfold splitOnCharAux
      rw [if_pos rfl]
      rw [splitOnCharAux_no_sep '\n' (List.replicate (2 * 1024 * 1024) 'a') []
        (fun c hc => by rw [List.eq_of_mem_replicate hc]; decide)]
      rfl
    have hbuck : bucketLines
        (splitLines (String.mk ('-' :: '-' :: '\n' :: List.replicate (2 * 1024 * 1024) 'a'))) =
        ([], [repA (2 * 1024 * 1024)], []) := by
      rw [hsplit]
      unfold bucketLines
      rw [bucketsAux_cons_sep 0 "--" _ (by decide)]
      exact bucketsAux_one_single _ (isSep_repA _ (by omega))
    exact (parse_size_limits trivialCollab _).2.2
      (by rw [hbuck]; simp)
      (by rw [hbuck]
          show byteLen (joinLines [repA (2 * 1024 * 1024)]) > 1024 * 1024
          show byteLen (repA (2 * 1024 * 1024)) > 1024 * 1024
          rw [byteLen_repA]; omega)

/-! ## Registry lookup (source: `findPromptByName`) -/

/-- ASCII model of Go `strings.ToLower`; the Unicode simple case mapping
agrees with this on ASCII, which covers the names exercised here. -/
def asciiLower (c : Char) : Char :=
  if 65 ≤ c.toNat ∧ c.toNat ≤ 90 then Char.ofNat (c.toNat + 32) else c

def goToLower (s : String) : String := String.mk (s.toList.map asciiLower)

/-- Needle-at-head test for the substring search. -/
def startsWithChars : List Char → List Char → Bool
  | [], _ => true
  | _ :: _, [] => false
  | a :: as, b :: bs => a == b && startsWithChars as bs

/-- Go `strings.Contains(hay, needle)` as a scan over the hay. -/
def containsChars (needle : List Char) : List Char → Bool
  | [] => needle.isEmpty
  | c :: t => startsWithChars needle (c :: t) || containsChars needle t

def goContains (s sub : String) : Bool := containsChars sub.toList s.toList

/-- `findPromptByName` from the source: the requested name is trimmed and
lowercased once; then each entry in order is tested for lowercased name
equality and, in the same iteration, for a lowercased description
substring match; the first entry passing either test is returned. -/
def findPromptByNameAux (n : String) : List PromptEntry → Option PromptEntry
  | [] => none
  | e :: rest =>
    if goToLower e.name = n then some e
    else if goContains (goToLower e.description) n then some e
    else findPromptByNameAux n rest

def findPromptByName (prompts : List PromptEntry) (name : String) :
    Option PromptEntry :=
  findPromptByNameAux (goToLower (goTrimSpace name)) prompts

/-- Modelled from the claim's wording: first the earliest entry whose
name matches case-insensitively, and only failing that the earliest
entry whose description contains the requested name. -/
def findPromptByNameClaimed (prompts : List PromptEntry) (name : String) :
    Option PromptEntry :=
  match prompts.find? (fun e => goToLower e.name == goToLower (goTrimSpace name)) with
  | some e => some e
  | none =>
    prompts.find? (fun e =>
      goContains (goToLower e.description) (goToLower (goTrimSpace name)))

def entryDescFoo : PromptEntry := ⟨"x", "contains foo", "", "", "", ""⟩

def entryNameFoo : PromptEntry := ⟨"foo", "", "", "", "", ""⟩

/-- C10 counterexample: with an earlier entry whose description contains
"foo" and a later entry literally named "foo", the code returns the
earlier description match, while the claim's name-matches-first rule
would return the later entry. -/
theorem findPromptByName_not_name_first :
    findPromptByName [entryDescFoo, entryNameFoo] "foo" = some entryDescFoo
    ∧ findPromptByNameClaimed [entryDescFoo, entryNameFoo] "foo" = some entryNameFoo
    ∧ entryDescFoo ≠ entryNameFoo
    ∧ entryNameFoo.name = "foo" := by
  refine ⟨by decide, by decide, by decide, rfl⟩

/-- C10 (amended): the lookup returns the first entry, in manifest order,
whose lowercased name equals the requested name or whose lowercased
description contains it — a single pass testing both criteria per entry,
so a description substring can select a prompt even when no (or a later)
entry carries the requested name. -/
theorem findPromptByName_first_either_match (prompts : List PromptEntry)
    (name : String) :
    findPromptByName prompts name =
      prompts.find? (fun e =>
        goToLower e.name == goToLower (goTrimSpace name) ||
        goContains (goToLower e.description) (goToLower (goTrimSpace name))) := by
  unfold findPromptByName
  induction prompts with
  | nil => rfl
  | cons e rest ih =>
    unfold findPromptByNameAux
    by_cases h1 : goToLower e.name = goToLower (goTrimSpace name)
    · rw [if_pos h1, List.find?_cons_of_pos _ (by simp [h1])]
    · rw [if_neg h1]
      by_cases h2 : goContains (goToLower e.description)
          (goToLower (goTrimSpace name)) = true
      · rw [if_pos h2, List.find?_cons_of_pos _ (by simp [h1, h2])]
      · rw [if_neg h2, List.find?_cons_of_neg _ (by simp [h1, h2]), ih]

/-! ## Filesystem model (the `afero`-backed store) -/

/-- The afero filesystem, modelled as an association list from path to
file content — the in-memory analogue of `afero.MemMapFs` used by the
repository's own tests; directories are implicit. -/
abbrev Fs := List (String × String)

def fsRead (fs : Fs) (path : String) : Option String :=
  (fs.find? (fun kv => kv.1 == path)).map (fun kv => kv.2)

def fsExists (fs : Fs) (path : String) : Bool := (fsRead fs path).isSome

/-- `afero.WriteFile`: full-file overwrite. -/
def fsWrite (fs : Fs) (path content : String) : Fs :=
  (path, content) :: fs.filter (fun kv => !(kv.1 == path))

/-- `fs.Remove`. -/
def fsRemove (fs : Fs) (path : String) : Fs :=
  fs.filter (fun kv => !(kv.1 == path))

theorem find?_filter_ne (l : Fs) (p q : String) (h : q ≠ p) :
    (l.filter (fun kv => !(kv.1 == p))).find? (fun kv => kv.1 == q) =
      l.find? (fun kv => kv.1 == q) := by
  induction l with
  | nil => rfl
  | cons kv rest ih =>
    by_cases hk : kv.1 = p
    · rw [List.filter_cons_of_neg (by simp [hk]), ih,
        List.find?_cons_of_neg _ (by simp [hk]; exact Ne.symm h)]
    · rw [List.filter_cons_of_pos (by simp [hk])]
      by_cases hq : kv.1 = q
      · rw [List.find?_cons_of_pos _ (by simp [hq]),
          List.find?_cons_of_pos _ (by simp [hq])]
      · rw [List.find?_cons_of_neg _ (by simp [hq]),
          List.find?_cons_of_neg _ (by simp [hq]), ih]

theorem find?_filter_self_none (l : Fs) (p : String) :
    (l.filter (fun kv => !(kv.1 == p))).find? (fun kv => kv.1 == p) = none := by
  induction l with
  | nil => rfl
  | cons kv rest ih =>
    by_cases hk : kv.1 = p
    · rw [List.filter_cons_of_neg (by simp [hk])]
      exact ih
    · rw [List.filter_cons_of_pos (by simp [hk]),
        List.find?_cons_of_neg _ (by simp [hk])]
      exact ih

theorem fsRead_write_same (fs : Fs) (p c : String) :
    fsRead (fsWrite fs p c) p = some c := by
  unfold fsRead fsWrite
  rw [List.find?_cons_of_pos _ (by simp)]
  rfl

theorem fsRead_write_other (fs : Fs) (p c q : String) (h : q ≠ p) :
    fsRead (fsWrite fs p c) q = fsRead fs q := by
  unfold fsRead fsWrite
  rw [List.find?_cons_of_neg _ (by simp; exact Ne.symm h), find?_filter_ne fs p q h]

theorem fsRead_remove_other (fs : Fs) (p q : String) (h : q ≠ p) :
    fsRead (fsRemove fs p) q = fsRead fs q := by
  unfold fsRead fsRemove
  rw [find?_filter_ne fs p q h]

theorem fsRead_remove_same (fs : Fs) (p : String) :
    fsRead (fsRemove fs p) p = none := by
  unfold fsRead fsRemove
  rw [find?_filter_self_none fs p]
  rfl

/-! ## Store paths -/

/-- `filepath.Join(".marvai", promptName + ".mprompt")`; no path cleaning
occurs for validated names. -/
def mpromptPath (name : String) : String := ".marvai/" ++ name ++ ".mprompt"

def varPath (name : String) : String := ".marvai/" ++ name ++ ".var"

/-- The sibling backup path `mpromptFile + ".backup"` used by the update. -/
def backupPath (name : String) : String := mpromptPath name ++ ".backup"

theorem toList_append (a b : String) : (a ++ b).toList = a.toList ++ b.toList := rfl

theorem mpromptPath_ne_varPath (name : String) : mpromptPath name ≠ varPath name := by
  intro h
  have hl := congrArg (fun s => s.toList.length) h
  simp only [mpromptPath, varPath, toList_append, List.length_append] at hl
  have h1 : (".mprompt" : String).toList.length = 8 := rfl
  have h2 : (".var" : String).toList.length = 4 := rfl
  omega

theorem mpromptPath_ne_backupPath (name : String) :
    mpromptPath name ≠ backupPath name := by
  intro h
  have hl := congrArg (fun s => s.toList.length) h
  simp only [backupPath, toList_append, List.length_append] at hl
  have h1 : (".backup" : String).toList.length = 7 := rfl
  omega

theorem varPath_ne_backupPath (name : String) : varPath name ≠ backupPath name := by
  intro h
  have hl := congrArg (fun s => s.toList.length) h
  simp only [varPath, backupPath, mpromptPath, toList_append, List.length_append] at hl
  have h1 : (".backup" : String).toList.length = 7 := rfl
  have h2 : (".var" : String).toList.length = 4 := rfl
  have h3 : (".mprompt" : String).toList.length = 8 := rfl
  omega

/-! ## Security validator and checksum (source: `ValidatePromptName`,
`verifySHA256`) -/

/-- `ValidatePromptName` from the source: non-empty, at most 100 bytes,
no `..`, `/` or `\`, no control characters. -/
def ValidatePromptName (promptName : String) : Except String Unit :=
  if promptName = "" then .error "prompt name cannot be empty"
  else if byteLen promptName > 100 then .error "prompt name too long"
  else if goContains promptName ".." then .error "prompt name cannot contain dot-dot"
  else if goContains promptName "/" then .error "prompt name cannot contain slash"
  else if goContains promptName "\\" then .error "prompt name cannot contain backslash"
  else if promptName.toList.any (fun c => c.toNat < 32 || c.toNat == 127) then
    .error "prompt name cannot contain control characters"
  else .ok ()

/-- ASCII model of Go `strings.EqualFold` (hex digests are ASCII). -/
def goEqualFold (a b : String) : Bool := goToLower a == goToLower b

/-- `verifySHA256` from the source, over the abstract hex digest
function: an empty expected hash skips verification; otherwise the digest
of the content must equal the expected hash case-insensitively. -/
def verifySHA256 (hash : String → String) (content expected : String) :
    Except String Unit :=
  if expected = "" then .ok ()
  else if goEqualFold (hash content) expected then .ok ()
  else .error "SHA256 verification failed"

theorem verifySHA256_error_of_mismatch (hash : String → String)
    (content expected : String) (h1 : expected ≠ "")
    (h2 : goEqualFold (hash content) expected = false) :
    verifySHA256 hash content expected = .error "SHA256 verification failed" := by
  unfold verifySHA256
  rw [if_neg h1, if_neg (by simp [h2])]

/-! ## Provenance injection (source: `injectSourceIntoMPrompt`) -/

/-- `injectSourceIntoMPrompt` from the source: collect the lines before
the first separator, deserialize them when the joined text is non-empty,
stamp the `source` field, re-serialize the frontmatter (trimmed) and
reattach everything from the first separator line onward. -/
def injectSourceIntoMPrompt (co : Collab) (content : String)
    (sourceType : String) : Except String String :=
  let lines := splitLines content
  let fmLines := lines.takeWhile (fun l => !isSep l)
  let rest := lines.dropWhile (fun l => !isSep l)
  let fm0 : Except String MPromptFrontmatter :=
    if fmLines ≠ [] then
      if joinLines fmLines ≠ "" then
        match co.fmDec (joinLines fmLines) with
        | some fm => .ok fm
        | none => .error "error parsing frontmatter YAML"
      else .ok emptyFrontmatter
    else .ok emptyFrontmatter
  match fm0 with
  | .error e => .error e
  | .ok fm =>
    .ok (joinLines (goTrimSpace (co.fmEnc { fm with source := sourceType }) :: rest))

/-- `getInstalledPromptVersion` from the source: read the installed file
and return its frontmatter version, or `""` on any error. -/
def getInstalledPromptVersion (co : Collab) (fs : Fs) (filename : String) : String :=
  match fsRead fs filename with
  | none => ""
  | some content =>
    match ParseMPromptContent co content with
    | .error _ => ""
    | .ok d => d.frontmatter.version

/-- `copyFileAfero` from the source: fails iff the source file cannot be
opened, otherwise a full copy to the destination. -/
def copyFileAfero (fs : Fs) (src dst : String) : Except String Fs :=
  match fsRead fs src with
  | none => .error "copy: cannot open source"
  | some content => .ok (fsWrite fs dst content)

/-! ## Install orchestrator (source: `InstallMPromptByNameFromRepo`) -/

/-- The external circumstances of one install run: the git-repository
check, the fetched registry (`none` = fetch failed, which the source
treats as fatal), the downloaded artifact bytes (`none` = HTTP failure),
the interactive confirmation answer, and the wizard outcome
(`none` = wizard error). -/
structure InstallEnv where
  gitRepo : Bool
  prompts : Option (List PromptEntry)
  download : Option String
  confirm : String
  wizard : Option (List (String × String))

/-- The DeriveName step of the install: prefer the frontmatter name when
present and valid, else the caller-supplied name. -/
def installFinalName (promptName : String) (data : MPromptData) : String :=
  if data.frontmatter.name ≠ "" then
    match ValidatePromptName data.frontmatter.name with
    | .ok _ => data.frontmatter.name
    | .error _ => promptName
  else promptName

/-- The filesystem-independent prefix of `InstallMPromptByNameFromRepo`,
in source order: git check, name validation, registry fetch, entry
lookup, download, size cap, parse for hash verification, checksum check
and the second parse.  Returns the downloaded bytes and parsed data. -/
def installResolve (co : Collab) (env : InstallEnv) (promptName : String) :
    Except String (String × MPromptData) :=
  if ¬ env.gitRepo then .error "not a git repository"
  else
    match ValidatePromptName promptName with
    | .error e => .error e
    | .ok _ =>
      match env.prompts with
      | none => .error "error fetching remote prompts"
      | some prompts =>
        match findPromptByName prompts promptName with
        | none => .error "prompt not found in remote prompts"
        | some promptEntry =>
          match env.download with
          | none => .error "error downloading mprompt file"
          | some promptContent =>
            if byteLen promptContent > 10 * 1024 * 1024 then
              .error "mprompt file too large"
            else
              match ParseMPromptContent co promptContent with
              | .error _ => .error "failed to parse downloaded mprompt file"
              | .ok tempData =>
                match verifySHA256 co.sha256 tempData.template promptEntry.sha256 with
                | .error e => .error e
                | .ok _ =>
                  match ParseMPromptContent co promptContent with
                  | .error _ => .error "failed to parse downloaded mprompt file"
                  | .ok data => .ok (promptContent, data)

/-- `InstallMPromptByNameFromRepo` from the source, over the filesystem
model: after the resolve prefix, derive the name, skip with a non-error
outcome when already installed or when the user declines, then inject the
provenance tag, write the artifact and, when variables exist, run the
wizard and persist its values.  Stdout messages are dropped. -/
def InstallMPromptByNameFromRepo (co : Collab) (env : InstallEnv) (fs : Fs)
    (promptName : String) : Except String Unit × Fs :=
  match installResolve co env promptName with
  | .error e => (.error e, fs)
  | .ok (promptContent, data) =>
    if fsExists fs (mpromptPath (installFinalName promptName data)) ||
        fsExists fs (varPath (installFinalName promptName data)) then
      (.ok (), fs)
    else if goToLower (goTrimSpace env.confirm) ≠ "yes" then
      (.ok (), fs)
    else
      match injectSourceIntoMPrompt co promptContent "distro" with
      | .error e => (.error e, fs)
      | .ok updatedContent =>
        if data.vars ≠ [] then
          match env.wizard with
          | none =>
            (.error "wizard failed",
              fsWrite fs (mpromptPath (installFinalName promptName data))
                updatedContent)
          | some values =>
            (.ok (),
              fsWrite
                (fsWrite fs (mpromptPath (installFinalName promptName data))
                  updatedContent)
                (varPath (installFinalName promptName data)) (co.varEnc values))
        else
          (.ok (),
            fsWrite fs (mpromptPath (installFinalName promptName data))
              updatedContent)

/-! ## Update orchestrator (source: `UpdatePrompt`) -/

/-- The external circumstances of one update run: the fetched registry,
the confirmation answer, the downloaded bytes, whether the artifact write
succeeds, the residue the failed write leaves behind (`none` = file
removed — covering arbitrary partial-write corruption), the wizard
outcome and the rollback answer. -/
structure UpdateEnv where
  prompts : Option (List PromptEntry)
  confirm : String
  download : Option String
  writeOk : Bool
  clobber : Option String
  wizard : Option (List (String × String))
  rollback : String

/-- The write-failure recovery of `UpdatePrompt`: the failed
`afero.WriteFile` leaves `env.clobber` at the artifact path (`none` =
removed), then the source copies the backup back over it (ignoring a copy
error), removes the backup and reports the install error. -/
def updateWriteFailure (env : UpdateEnv) (fs1 : Fs) (promptName : String) :
    Except String Unit × Fs :=
  let fsBad :=
    match env.clobber with
    | none => fsRemove fs1 (mpromptPath promptName)
    | some residue => fsWrite fs1 (mpromptPath promptName) residue
  let fsRestored :=
    match fsRead fsBad (backupPath promptName) with
    | none => fsBad
    | some b => fsWrite fsBad (mpromptPath promptName) b
  (.error "error installing new version",
    fsRemove fsRestored (backupPath promptName))

/-- The part of `UpdatePrompt` after the new artifact was written: run
the wizard with prefills when variables exist (offering rollback on
wizard failure), persist the values, and remove the backup. -/
def updateAfterWrite (co : Collab) (env : UpdateEnv) (fs2 : Fs)
    (promptName : String) (newData : MPromptData) : Except String Unit × Fs :=
  if newData.vars ≠ [] then
    match env.wizard with
    | none =>
      if goToLower (goTrimSpace env.rollback) = "yes" then
        let fsRestored :=
          match fsRead fs2 (backupPath promptName) with
          | none => fs2
          | some b => fsWrite fs2 (mpromptPath promptName) b
        (.error "update rolled back due to wizard failure",
          fsRemove fsRestored (backupPath promptName))
      else (.ok (), fsRemove fs2 (backupPath promptName))
    | some newValues =>
      (.ok (), fsRemove (fsWrite fs2 (varPath promptName) (co.varEnc newValues))
        (backupPath promptName))
  else (.ok (), fsRemove fs2 (backupPath promptName))

/-- `UpdatePrompt` from the source, over the filesystem model: validate,
require an installed artifact, read its version, fetch the registry and
find the entry, stop (non-error) when already up to date or the user
declines, load existing values (they only feed the abstract wizard), copy
the artifact to the `.backup` sibling, download, cap, parse and
checksum-verify the new version, inject the provenance tag, write the
artifact (restoring from backup and deleting the backup on write
failure), then the post-write wizard phase. -/
def UpdatePrompt (co : Collab) (env : UpdateEnv) (fs : Fs)
    (promptName : String) : Except String Unit × Fs :=
  match ValidatePromptName promptName with
  | .error e => (.error e, fs)
  | .ok _ =>
    if fsExists fs (mpromptPath promptName) = false then
      (.error "prompt is not installed", fs)
    else
      match env.prompts with
      | none => (.error "error fetching remote prompts", fs)
      | some prompts =>
        match findPromptByName prompts promptName with
        | none => (.error "prompt not found in remote registry", fs)
        | some promptEntry =>
          if getInstalledPromptVersion co fs (mpromptPath promptName) ≠ "" ∧
              isVersionUpToDate
                (getInstalledPromptVersion co fs (mpromptPath promptName))
                promptEntry.version then
            (.ok (), fs)
          else if goToLower (goTrimSpace env.confirm) ≠ "yes" then
            (.ok (), fs)
          else
            match copyFileAfero fs (mpromptPath promptName)
                (backupPath promptName) with
            | .error e => (.error e, fs)
            | .ok fs1 =>
              match env.download with
              | none => (.error "error downloading new version", fs1)
              | some newContent =>
                if byteLen newContent > 10 * 1024 * 1024 then
                  (.error "new version too large", fs1)
                else
                  match ParseMPromptContent co newContent with
                  | .error _ => (.error "error parsing new version", fs1)
                  | .ok newData =>
                    match verifySHA256 co.sha256 newData.template
                        promptEntry.sha256 with
                    | .error e => (.error e, fs1)
                    | .ok _ =>
                      match injectSourceIntoMPrompt co newContent "distro" with
                      | .error e => (.error e, fs1)
                      | .ok updatedContent =>
                        if env.writeOk then
                          updateAfterWrite co env
                            (fsWrite fs1 (mpromptPath promptName) updatedContent)
                            promptName newData
                        else updateWriteFailure env fs1 promptName

theorem updateWriteFailure_restores (env : UpdateEnv) (fs1 : Fs)
    (name orig : String)
    (hback : fsRead fs1 (backupPath name) = some orig) :
    (∃ e, (updateWriteFailure env fs1 name).1 = .error e)
    ∧ fsRead (updateWriteFailure env fs1 name).2 (mpromptPath name) = some orig
    ∧ fsRead (updateWriteFailure env fs1 name).2 (backupPath name) = none := by
  unfold updateWriteFailure
  cases hc : env.clobber with
  | none =>
    have hb2 : fsRead (fsRemove fs1 (mpromptPath name)) (backupPath name) =
        some orig := by
      rw [fsRead_remove_other _ _ _ (Ne.symm (mpromptPath_ne_backupPath name))]
      exact hback
    simp only [hb2]
    refine ⟨⟨_, rfl⟩, ?_, ?_⟩
    · rw [fsRead_remove_other _ _ _ (mpromptPath_ne_backupPath name),
        fsRead_write_same]
    · exact fsRead_remove_same _ _
  | some residue =>
    have hb2 : fsRead (fsWrite fs1 (mpromptPath name) residue) (backupPath name) =
        some orig := by
      rw [fsRead_write_other _ _ _ _ (Ne.symm (mpromptPath_ne_backupPath name))]
      exact hback
    simp only [hb2]
    refine ⟨⟨_, rfl⟩, ?_, ?_⟩
    · rw [fsRead_remove_other _ _ _ (mpromptPath_ne_backupPath name),
        fsRead_write_same]
    · exact fsRead_remove_same _ _

theorem installResolve_error_of_mismatch (co : Collab) (env : InstallEnv)
    (name : String) (ps : List PromptEntry) (entry : PromptEntry)
    (content : String) (data : MPromptData)
    (hps : env.prompts = some ps)
    (hfind : findPromptByName ps name = some entry)
    (hdl : env.download = some content)
    (hparse : ParseMPromptContent co content = .ok data)
    (hsha : entry.sha256 ≠ "")
    (hfold : goEqualFold (co.sha256 data.template) entry.sha256 = false) :
    ∃ e, installResolve co env name = .error e := by
  unfold installResolve
  by_cases hg : env.gitRepo = true
  · rw [if_neg (fun hc => hc hg)]
    cases hv : ValidatePromptName name with
    | error e => exact ⟨e, rfl⟩
    | ok u =>
      simp only [hps, hfind, hdl]
      by_cases hsz : byteLen content > 10 * 1024 * 1024
      · rw [if_pos hsz]
        exact ⟨_, rfl⟩
      · rw [if_neg hsz]
        simp only [hparse,
          verifySHA256_error_of_mismatch co.sha256 data.template entry.sha256 hsha hfold]
        exact ⟨_, rfl⟩
  · rw [if_pos hg]
    exact ⟨_, rfl⟩

/-! ## Shared concrete instances for the orchestrator claims -/

/-- A concrete collaborator: deserializers accept everything, the
frontmatter serializer emits `"fm"` and the digest of any content is
`"aa"`. -/
def demoCollab : Collab :=
  ⟨fun _ => some emptyFrontmatter, fun _ => some [], fun _ => some [],
    fun _ => "", fun _ => "fm", fun _ => "aa"⟩

def demoEntry (sha : String) : PromptEntry := ⟨"p", "", "", "2.0.0", "p.mprompt", sha⟩

/-- A store holding one installed artifact `p`. -/
def demoFs : Fs := [(mpromptPath "p", "old content")]

def demoInstallEnv (sha : String) : InstallEnv :=
  ⟨true, some [demoEntry sha], some "new", "yes", some []⟩

def demoUpdateEnv (sha : String) (writeOk : Bool) : UpdateEnv :=
  ⟨some [demoEntry sha], "yes", some "new", writeOk, some "JUNK", some [], ""⟩

/-- C3: when the write of the new artifact fails after the backup copy
was taken, the update restores the installed `.mprompt` file from the
`.backup` sibling and deletes the backup: the run reports an error, the
artifact file holds its exact pre-update bytes, and no backup file
remains. -/
theorem update_write_failure_rolls_back (co : Collab) (env : UpdateEnv)
    (fs : Fs) (name orig newContent updated : String)
    (ps : List PromptEntry) (entry : PromptEntry) (newData : MPromptData)
    (hval : ValidatePromptName name = .ok ())
    (hread : fsRead fs (mpromptPath name) = some orig)
    (hps : env.prompts = some ps)
    (hfind : findPromptByName ps name = some entry)
    (hnotup : ¬(getInstalledPromptVersion co fs (mpromptPath name) ≠ "" ∧
        isVersionUpToDate (getInstalledPromptVersion co fs (mpromptPath name))
          entry.version = true))
    (hconf : goToLower (goTrimSpace env.confirm) = "yes")
    (hdl : env.download = some newContent)
    (hsz : byteLen newContent ≤ 10 * 1024 * 1024)
    (hparse : ParseMPromptContent co newContent = .ok newData)
    (hver : verifySHA256 co.sha256 newData.template entry.sha256 = .ok ())
    (hinj : injectSourceIntoMPrompt co newContent "distro" = .ok updated)
    (hwf : env.writeOk = false) :
    (∃ e, (UpdatePrompt co env fs name).1 = .error e)
    ∧ fsRead (UpdatePrompt co env fs name).2 (mpromptPath name) = some orig
    ∧ fsRead (UpdatePrompt co env fs name).2 (backupPath name) = none := by
  have hex : fsExists fs (mpromptPath name) = true := by
    simp [fsExists, hread]
  have hU : UpdatePrompt co env fs name =
      updateWriteFailure env (fsWrite fs (backupPath name) orig) name := by
    unfold UpdatePrompt
    simp only [hval]
    rw [if_neg (by simp [hex])]
    simp only [hps, hfind]
    rw [if_neg hnotup, if_neg (by simp [hconf])]
    simp only [copyFileAfero, hread, hdl]
    rw [if_neg (by omega)]
    simp only [hparse, hver, hinj, hwf]
    rw [if_neg (by simp)]
  rw [hU]
  exact updateWriteFailure_restores env _ name orig (fsRead_write_same fs _ orig)

/-- Witness for C3 at a concrete one-artifact store whose update write
fails and clobbers the file with `"JUNK"`. -/
theorem update_write_failure_rolls_back_witness :
    fsRead demoFs (mpromptPath "p") = some "old content"
    ∧ ((∃ e, (UpdatePrompt demoCollab (demoUpdateEnv "" false) demoFs "p").1 = .error e)
      ∧ fsRead (UpdatePrompt demoCollab (demoUpdateEnv "" false) demoFs "p").2
          (mpromptPath "p") = some "old content"
      ∧ fsRead (UpdatePrompt demoCollab (demoUpdateEnv "" false) demoFs "p").2
          (backupPath "p") = none) := by
  refine ⟨rfl, ?_⟩
  exact update_write_failure_rolls_back demoCollab (demoUpdateEnv "" false) demoFs
    "p" "old content" "new" "fm" [demoEntry ""] (demoEntry "")
    ⟨emptyFrontmatter, [], ""⟩
    rfl rfl rfl rfl (fun h => h.1 rfl) rfl rfl (by decide) rfl rfl rfl rfl

/-- C2 counterexample: in the update path a checksum mismatch (non-empty
registry checksum `"zz"` against digest `"aa"`) aborts the run with an
error, yet the `.backup` copy of the artifact has already been written to
the store and is left behind — so the mismatch does not abort before any
file is written. -/
theorem update_checksum_mismatch_leaves_backup :
    (∃ e, (UpdatePrompt demoCollab (demoUpdateEnv "zz" true) demoFs "p").1 = .error e)
    ∧ fsRead demoFs (backupPath "p") = none
    ∧ fsRead (UpdatePrompt demoCollab (demoUpdateEnv "zz" true) demoFs "p").2
        (backupPath "p") = some "old content"
    ∧ (demoEntry "zz").sha256 ≠ "" := by
  exact ⟨⟨_, rfl⟩, rfl, rfl, by decide⟩

/-- C2 (amended): with a non-empty registry checksum, install-by-name and
update verify the SHA-256 digest of the parsed template body only — the
verification outcome is the same for any two downloads whose parsed
templates agree — and a digest mismatch aborts with an error before the
installed artifact file is written or modified: install leaves the store
completely untouched, while update leaves the artifact file untouched
(the `.backup` copy of it, taken before verification, has however already
been written). -/
theorem checksum_template_only_and_abort (co : Collab) (env : InstallEnv)
    (uenv : UpdateEnv) (fs ufs : Fs) (name uname : String) :
    (∀ c1 c2 d1 d2 expected, ParseMPromptContent co c1 = .ok d1 →
      ParseMPromptContent co c2 = .ok d2 → d1.template = d2.template →
      verifySHA256 co.sha256 d1.template expected =
        verifySHA256 co.sha256 d2.template expected)
    ∧ (∀ ps entry content data,
        env.prompts = some ps → findPromptByName ps name = some entry →
        env.download = some content → ParseMPromptContent co content = .ok data →
        entry.sha256 ≠ "" →
        goEqualFold (co.sha256 data.template) entry.sha256 = false →
        (∃ e, (InstallMPromptByNameFromRepo co env fs name).1 = .error e)
        ∧ (InstallMPromptByNameFromRepo co env fs name).2 = fs)
    ∧ (∀ ps entry content data,
        uenv.prompts = some ps → findPromptByName ps uname = some entry →
        uenv.download = some content → ParseMPromptContent co content = .ok data →
        entry.sha256 ≠ "" →
        goEqualFold (co.sha256 data.template) entry.sha256 = false →
        ¬(getInstalledPromptVersion co ufs (mpromptPath uname) ≠ "" ∧
          isVersionUpToDate (getInstalledPromptVersion co ufs (mpromptPath uname))
            entry.version = true) →
        goToLower (goTrimSpace uenv.confirm) = "yes" →
        (∃ e, (UpdatePrompt co uenv ufs uname).1 = .error e)
        ∧ fsRead (UpdatePrompt co uenv ufs uname).2 (mpromptPath uname) =
            fsRead ufs (mpromptPath uname)) := by
  refine ⟨fun c1 c2 d1 d2 expected h1 h2 h3 => by rw [h3], ?_, ?_⟩
  · intro ps entry content data hps hfind hdl hparse hsha hfold
    obtain ⟨e, he⟩ := installResolve_error_of_mismatch co env name ps entry
      content data hps hfind hdl hparse hsha hfold
    unfold InstallMPromptByNameFromRepo
    simp only [he]
    exact ⟨⟨e, rfl⟩, trivial⟩
  · intro ps entry content data hps hfind hdl hparse hsha hfold hnotup hconf
    unfold UpdatePrompt
    cases hv : ValidatePromptName uname with
    | error e => exact ⟨⟨e, rfl⟩, rfl⟩
    | ok u =>
      by_cases hex : fsExists ufs (mpromptPath uname) = false
      · rw [if_pos hex]
        exact ⟨⟨_, rfl⟩, rfl⟩
      · rw [if_neg hex]
        simp only [hps, hfind]
        rw [if_neg hnotup, if_neg (by simp [hconf])]
        have hexT : fsExists ufs (mpromptPath uname) = true := by
          cases hb : fsExists ufs (mpromptPath uname)
          · exact absurd hb hex
          · rfl
        obtain ⟨orig, horig⟩ :
            ∃ orig, fsRead ufs (mpromptPath uname) = some orig := by
          have := hexT
          unfold fsExists at this
          exact Option.isSome_iff_exists.mp this
        simp only [copyFileAfero, horig, hdl]
        by_cases hsz : byteLen content > 10 * 1024 * 1024
        · rw [if_pos hsz]
          refine ⟨⟨_, rfl⟩, ?_⟩
          rw [fsRead_write_other _ _ _ _ (mpromptPath_ne_backupPath uname)]
          exact horig
        · rw [if_neg hsz]
          simp only [hparse,
            verifySHA256_error_of_mismatch co.sha256 data.template entry.sha256
              hsha hfold]
          refine ⟨⟨_, rfl⟩, ?_⟩
          rw [fsRead_write_other _ _ _ _ (mpromptPath_ne_backupPath uname)]
          exact horig

/-- Witness for C2 (amended) at the concrete mismatch scenario: install
into an empty store and update of the one-artifact store, both against
registry checksum `"zz"`. -/
theorem checksum_template_only_and_abort_witness :
    ((∃ e, (InstallMPromptByNameFromRepo demoCollab (demoInstallEnv "zz") [] "p").1 =
        .error e)
      ∧ (InstallMPromptByNameFromRepo demoCollab (demoInstallEnv "zz") [] "p").2 = [])
    ∧ ((∃ e, (UpdatePrompt demoCollab (demoUpdateEnv "zz" true) demoFs "p").1 =
        .error e)
      ∧ fsRead (UpdatePrompt demoCollab (demoUpdateEnv "zz" true) demoFs "p").2
          (mpromptPath "p") = fsRead demoFs (mpromptPath "p")) := by
  refine ⟨?_, ?_⟩
  · exact (checksum_template_only_and_abort demoCollab (demoInstallEnv "zz")
      (demoUpdateEnv "zz" true) [] demoFs "p" "p").2.1
      [demoEntry "zz"] (demoEntry "zz") "new" ⟨emptyFrontmatter, [], ""⟩
      rfl rfl rfl rfl (by decide) (by decide)
  · exact (checksum_template_only_and_abort demoCollab (demoInstallEnv "zz")
      (demoUpdateEnv "zz" true) [] demoFs "p" "p").2.2
      [demoEntry "zz"] (demoEntry "zz") "new" ⟨emptyFrontmatter, [], ""⟩
      rfl rfl rfl rfl (by decide) (by decide) (fun h => h.1 rfl) rfl

/-- C4: if either the artifact file or the values file already exists at
the derived name, the install returns the non-error "already installed"
outcome with the store untouched; and any install that returned success
is idempotent — re-running it with the same inputs returns success and
the identical store, so a second fresh install never overwrites the files
the first one produced. -/
theorem install_already_installed_skips (co : Collab) (env : InstallEnv)
    (fs fs2 : Fs) (name content : String) (data : MPromptData) :
    (installResolve co env name = .ok (content, data) →
      (fsExists fs (mpromptPath (installFinalName name data)) = true ∨
        fsExists fs (varPath (installFinalName name data)) = true) →
      InstallMPromptByNameFromRepo co env fs name = (.ok (), fs))
    ∧ (InstallMPromptByNameFromRepo co env fs name = (.ok (), fs2) →
        InstallMPromptByNameFromRepo co env fs2 name = (.ok (), fs2)) := by
  constructor
  · intro hres hex
    unfold InstallMPromptByNameFromRepo
    simp only [hres]
    rw [if_pos (by rcases hex with h | h <;> simp [h])]
  · intro h
    unfold InstallMPromptByNameFromRepo at h ⊢
    cases hres : installResolve co env name with
    | error e =>
      rw [hres] at h
      simp at h
    | ok pr =>
      obtain ⟨content2, data2⟩ := pr
      simp only [hres] at h ⊢
      by_cases hex : (fsExists fs (mpromptPath (installFinalName name data2)) ||
          fsExists fs (varPath (installFinalName name data2))) = true
      · rw [if_pos hex] at h
        injection h with h1 h2
        subst h2
        rw [if_pos hex]
      · rw [if_neg hex] at h
        by_cases hcf : goToLower (goTrimSpace env.confirm) ≠ "yes"
        · rw [if_pos hcf] at h
          injection h with h1 h2
          subst h2
          rw [if_neg hex, if_pos hcf]
        · rw [if_neg hcf] at h
          cases hinj : injectSourceIntoMPrompt co content2 "distro" with
          | error e =>
            simp only [hinj] at h
            simp at h
          | ok updated =>
            simp only [hinj] at h ⊢
            by_cases hvars : data2.vars ≠ []
            · rw [if_pos hvars] at h
              cases hw : env.wizard with
              | none =>
                simp only [hw] at h
                simp at h
              | some values =>
                simp only [hw] at h
                injection h with h1 h2
                subst h2
                rw [if_pos ?_]
                have hmp : fsRead
                    (fsWrite
                      (fsWrite fs (mpromptPath (installFinalName name data2)) updated)
                      (varPath (installFinalName name data2)) (co.varEnc values))
                    (mpromptPath (installFinalName name data2)) = some updated := by
                  rw [fsRead_write_other _ _ _ _ (mpromptPath_ne_varPath _),
                    fsRead_write_same]
                simp [fsExists, hmp]
            · rw [if_neg hvars] at h
              injection h with h1 h2
              subst h2
              rw [if_pos ?_]
              have hmp : fsRead
                  (fsWrite fs (mpromptPath (installFinalName name data2)) updated)
                  (mpromptPath (installFinalName name data2)) = some updated :=
                fsRead_write_same _ _ _
              simp [fsExists, hmp]

/-- Witness for C4: a fresh install into the one-artifact store is
skipped with a non-error outcome, leaving the store unchanged. -/
theorem install_already_installed_skips_witness :
    installResolve demoCollab (demoInstallEnv "") "p" =
      .ok ("new", ⟨emptyFrontmatter, [], ""⟩)
    ∧ fsExists demoFs (mpromptPath "p") = true
    ∧ InstallMPromptByNameFromRepo demoCollab (demoInstallEnv "") demoFs "p" =
        (.ok (), demoFs) := by
  refine ⟨rfl, rfl, ?_⟩
  exact (install_already_installed_skips demoCollab (demoInstallEnv "") demoFs
    demoFs "p" "new" ⟨emptyFrontmatter, [], ""⟩).1 rfl (Or.inl rfl)

end Marvai
